import Mathlib

/-!
Shallow embedding of the payment-engine core (account.rs, amount.rs,
engine.rs, transaction.rs, error.rs).

Modelling choices:
* `Amount` (a wrapper around `rust_decimal::Decimal`, exact decimal
  arithmetic, "assume no overflow") is modelled as `Int`, counting units of
  ten-thousandths: every amount the constructor admits has scale at most 4,
  so it is an integer multiple of 10 ^ (-4), and absent overflow `Decimal`
  addition, subtraction and comparison agree with the integer ones on
  those multiples.
* The two `HashMap`s of `PaymentEngine` are modelled as a function map for
  `accounts` (client id, `u16`, modelled as `Nat`) and an association list
  for `transactions` (tx id, `u32`, modelled as `Nat`), so that the sum of
  disputed amounts per client is definable.
* `unwrap()` on a `None` amount is a panic; `PaymentEngine.insert`
  therefore returns `Option (PaymentEngine × Except TransactionError Unit)`
  with `none` meaning the Rust code panics.
-/

/-- The five record variants of `TransactionVariant` in transaction.rs. -/
inductive TransactionVariant : Type
  | deposit
  | withdrawal
  | dispute
  | resolve
  | chargeback
  deriving DecidableEq

/-- The error taxonomy of error.rs (`TransactionError`). -/
inductive TransactionError : Type
  | lockedAccount
  | transactionAlreadyExist
  | insufficientFunds
  | negativeAmount
  | transactionNotFound
  | transactionChargedback
  | notDisputed
  | alreadyDisputed
  deriving DecidableEq

/-- The `Transaction` record of transaction.rs: variant, client id, tx id,
optional amount, plus the `disputed` and `chargeback` flags that default to
`false` on deserialization. -/
structure Transaction : Type where
  variant : TransactionVariant
  client : Nat
  tx : Nat
  amount : Option Int
  disputed : Bool
  chargeback : Bool
  deriving DecidableEq

/-- Shape check `Transaction::is_valid`: Deposit/Withdrawal must carry an amount, the
other variants must not. -/
def Transaction.is_valid (t : Transaction) : Bool :=
  match t.variant with
  | TransactionVariant.deposit | TransactionVariant.withdrawal => t.amount.isSome
  | _ => t.amount.isNone

/-- Helper `Transaction::can_dispute` (transaction.rs, not called by the engine). -/
def Transaction.can_dispute (t : Transaction) : Except TransactionError Unit :=
  if t.disputed then Except.error TransactionError.alreadyDisputed
  else if t.chargeback then Except.error TransactionError.transactionChargedback
  else Except.ok ()

/-- Helper `Transaction::can_resolve_or_chargeback` (transaction.rs, not called by
the engine). -/
def Transaction.can_resolve_or_chargeback (t : Transaction) : Except TransactionError Unit :=
  if !t.disputed then Except.error TransactionError.notDisputed
  else if t.chargeback then Except.error TransactionError.transactionChargedback
  else Except.ok ()

/-- The `Account` struct of account.rs. -/
structure Account : Type where
  client : Nat
  available : Int
  held : Int
  total : Int
  locked : Bool
  deriving DecidableEq

/-- Constructor `Account::new`: all amounts zero, unlocked. -/
def Account.new (client : Nat) : Account :=
  { client := client, available := 0, held := 0, total := 0, locked := false }

/-- Mutation `Account::deposit`. -/
def Account.deposit (a : Account) (amount : Int) : Account :=
  { a with available := a.available + amount, total := a.total + amount }

/-- Mutation `Account::withdraw`. -/
def Account.withdraw (a : Account) (amount : Int) : Except TransactionError Account :=
  if a.available < amount then Except.error TransactionError.insufficientFunds
  else Except.ok { a with available := a.available - amount, total := a.total - amount }

/-- Mutation `Account::dispute` (no nonnegativity check on the result). -/
def Account.dispute (a : Account) (amount : Int) : Account :=
  { a with available := a.available - amount, held := a.held + amount }

/-- Mutation `Account::resolve`. -/
def Account.resolve (a : Account) (amount : Int) : Account :=
  { a with available := a.available + amount, held := a.held - amount }

/-- Mutation `Account::chargeback`: removes the amount from `total` and `held` and
locks the account. -/
def Account.chargeback (a : Account) (amount : Int) : Account :=
  { a with total := a.total - amount, held := a.held - amount, locked := true }

/-- Dispatcher `Account::transaction`: the lock check is the sole entry gate, then the
per-variant mutation. -/
def Account.transaction (a : Account) (v : TransactionVariant) (amount : Int) :
    Except TransactionError Account :=
  if a.locked then Except.error TransactionError.lockedAccount
  else
    match v with
    | TransactionVariant.deposit => Except.ok (a.deposit amount)
    | TransactionVariant.withdrawal => a.withdraw amount
    | TransactionVariant.dispute => Except.ok (a.dispute amount)
    | TransactionVariant.resolve => Except.ok (a.resolve amount)
    | TransactionVariant.chargeback => Except.ok (a.chargeback amount)

/-- Association-list lookup, modelling `HashMap::get` on the transactions
map. -/
def alook {α : Type} : List (Nat × α) → Nat → Option α
  | [], _ => none
  | p :: l, k => if p.1 = k then some p.2 else alook l k

/-- Association-list in-place update of an existing key, modelling the
mutation of the entry returned by `HashMap::get_mut`. -/
def aset {α : Type} : List (Nat × α) → Nat → α → List (Nat × α)
  | [], _, _ => []
  | p :: l, k, v => if p.1 = k then (k, v) :: l else p :: aset l k v

/-- Function-map update, modelling `HashMap` insertion on the accounts
map. -/
def upd {α : Type} (m : Nat → Option α) (k : Nat) (v : α) : Nat → Option α :=
  fun k2 => if k2 = k then some v else m k2

/-- The `PaymentEngine` struct of engine.rs: the Ledger Entry Store
(`transactions`) and the Account Registry (`accounts`). -/
structure PaymentEngine : Type where
  transactions : List (Nat × Transaction)
  accounts : Nat → Option Account

/-- Initial state `PaymentEngine::default()`: both maps empty. -/
def PaymentEngine.default : PaymentEngine :=
  { transactions := [], accounts := fun _ => none }

/-- Core operation `PaymentEngine::insert` (engine.rs). `none` models a panic (the
`unwrap()` of a `None` amount); `some (e, r)` is the post-state together
with the returned `Result`. The `entry(..).or_insert_with(..)` call
materialises the account in the registry before the variant dispatch. -/
def PaymentEngine.insert (e : PaymentEngine) (t : Transaction) :
    Option (PaymentEngine × Except TransactionError Unit) :=
  let acc := (e.accounts t.client).getD (Account.new t.client)
  let e1 : PaymentEngine := { e with accounts := upd e.accounts t.client acc }
  match t.variant with
  | TransactionVariant.deposit | TransactionVariant.withdrawal =>
    if (alook e1.transactions t.tx).isSome then
      some (e1, Except.error TransactionError.transactionAlreadyExist)
    else
      match t.amount with
      | none => none
      | some amount =>
        match acc.transaction t.variant amount with
        | Except.error err => some (e1, Except.error err)
        | Except.ok acc2 =>
          some ({ e1 with
                    accounts := upd e1.accounts t.client acc2,
                    transactions := (t.tx, t) :: e1.transactions },
                Except.ok ())
  | TransactionVariant.dispute =>
    match alook e1.transactions t.tx with
    | none => some (e1, Except.error TransactionError.transactionNotFound)
    | some dtx =>
      if dtx.client ≠ t.client then
        some (e1, Except.error TransactionError.transactionNotFound)
      else if dtx.disputed then
        some (e1, Except.error TransactionError.alreadyDisputed)
      else
        match dtx.amount with
        | none => none
        | some damt =>
          match acc.transaction t.variant damt with
          | Except.error err => some (e1, Except.error err)
          | Except.ok acc2 =>
            some ({ e1 with
                      accounts := upd e1.accounts t.client acc2,
                      transactions :=
                        aset e1.transactions t.tx { dtx with disputed := true } },
                  Except.ok ())
  | TransactionVariant.resolve | TransactionVariant.chargeback =>
    match alook e1.transactions t.tx with
    | none => some (e1, Except.error TransactionError.transactionNotFound)
    | some dtx =>
      if dtx.client ≠ t.client then
        some (e1, Except.error TransactionError.transactionNotFound)
      else if !dtx.disputed then
        some (e1, Except.error TransactionError.notDisputed)
      else
        match dtx.amount with
        | none => none
        | some damt =>
          match acc.transaction t.variant damt with
          | Except.error err => some (e1, Except.error err)
          | Except.ok acc2 =>
            some ({ e1 with
                      accounts := upd e1.accounts t.client acc2,
                      transactions :=
                        aset e1.transactions t.tx { dtx with disputed := false } },
                  Except.ok ())

/-- Feed a list of records through `PaymentEngine.insert`, one at a time,
in input order, keeping the post-state after each record whether it returns
`Ok` or `Err`; `none` if some record panics. -/
def insertAll : PaymentEngine → List Transaction → Option PaymentEngine
  | e, [] => some e
  | e, t :: ts =>
    match e.insert t with
    | none => none
    | some (e2, _) => insertAll e2 ts

/-- Project the error out of a returned `Result`. -/
def errKind : Except TransactionError Unit → Option TransactionError
  | Except.ok _ => none
  | Except.error err => some err

/-- The account `PaymentEngine::insert` operates on: the record's client's
account, materialised by `entry(..).or_insert_with(..)`. -/
def acc0 (e : PaymentEngine) (t : Transaction) : Account :=
  (e.accounts t.client).getD (Account.new t.client)

/-- The engine state right after the account registry materialises the
client's account, before the variant dispatch. Every error path of
`PaymentEngine::insert` returns this state unchanged. -/
def baseE (e : PaymentEngine) (t : Transaction) : PaymentEngine :=
  { e with accounts := upd e.accounts t.client (acc0 e t) }

/-- Well-formedness of the Ledger Entry Store as the engine relies on it:
every stored entry carries an amount (the engine unconditionally unwraps
it in the Dispute/Resolve/Chargeback branches). -/
def WfLedger (e : PaymentEngine) : Prop :=
  ∀ p ∈ e.transactions, p.2.amount.isSome = true

/-- The account balance invariant of the spec: total = available + held,
for every account in the registry. -/
def BalInv (e : PaymentEngine) : Prop :=
  ∀ c a, e.accounts c = some a → a.total = a.available + a.held

/-- A record as the input layer hands it to the core: a deserialized
amount is nonnegative (the `Amount` deserializer rejects negatives) and
the `disputed` flag starts `false` (`serde(skip_deserializing)`). -/
def goodTx (t : Transaction) : Bool :=
  (match t.amount with
   | some q => decide (0 ≤ q)
   | none => true) && !t.disputed

/-- The contribution of one ledger entry to the held funds of client c:
its amount if it is owned by c and currently disputed, else zero. -/
def contrib (c : Nat) (t : Transaction) : Int :=
  if t.client = c ∧ t.disputed = true then t.amount.getD 0 else 0

/-- Sum over the ledger of the disputed amounts owned by client c. -/
def disputedSum (c : Nat) : List (Nat × Transaction) → Int
  | [] => 0
  | p :: l => contrib c p.2 + disputedSum c l

/-- The inductive invariant behind nonnegativity of held funds: stored
entry amounts are present and nonnegative, every entry's owner already has
an account, and each account's held funds equal the sum of the disputed
entry amounts it owns. -/
structure EngineInv (e : PaymentEngine) : Prop where
  wfAmount : ∀ p ∈ e.transactions, ∃ q, p.2.amount = some q ∧ 0 ≤ q
  ownerHasAccount : ∀ p ∈ e.transactions, (e.accounts p.2.client).isSome = true
  heldSum : ∀ c a, e.accounts c = some a → a.held = disputedSum c e.transactions

/-- A deposit record as deserialized from the input. -/
def depRec (c tx : Nat) (q : Int) : Transaction :=
  { variant := TransactionVariant.deposit, client := c, tx := tx, amount := some q,
    disputed := false, chargeback := false }

/-- A withdrawal record as deserialized from the input. -/
def wdRec (c tx : Nat) (q : Int) : Transaction :=
  { variant := TransactionVariant.withdrawal, client := c, tx := tx, amount := some q,
    disputed := false, chargeback := false }

/-- A dispute record as deserialized from the input. -/
def dispRec (c tx : Nat) : Transaction :=
  { variant := TransactionVariant.dispute, client := c, tx := tx, amount := none,
    disputed := false, chargeback := false }

/-- A resolve record as deserialized from the input. -/
def resRec (c tx : Nat) : Transaction :=
  { variant := TransactionVariant.resolve, client := c, tx := tx, amount := none,
    disputed := false, chargeback := false }

/-- A chargeback record as deserialized from the input. -/
def cbRec (c tx : Nat) : Transaction :=
  { variant := TransactionVariant.chargeback, client := c, tx := tx, amount := none,
    disputed := false, chargeback := false }

/-- A one-client engine with a single locked account and an empty ledger. -/
def lockedE : PaymentEngine :=
  { transactions := [], accounts := upd (fun _ => none) 1 ⟨1, 0, 0, 0, true⟩ }

/-- The engine reached from the empty engine by the single record
`Deposit(client 1, tx 1, 10.0000)`, written in the exact shape
`PaymentEngine.insert` produces so the run evaluates to it literally. -/
def eng1 : PaymentEngine :=
  { transactions := [(1, depRec 1 1 100000)],
    accounts := upd (upd (fun _ => none) 1 (Account.new 1)) 1
      ((Account.new 1).deposit 100000) }

theorem upd_self {α : Type} (m : Nat → Option α) (k : Nat) (v : α) :
    upd m k v k = some v := by
  simp [upd]

theorem upd_ne {α : Type} (m : Nat → Option α) (k k2 : Nat) (v : α) (h : k2 ≠ k) :
    upd m k v k2 = m k2 := by
  simp [upd, h]

theorem upd_eq_of_lookup {α : Type} (m : Nat → Option α) (k : Nat) (v : α)
    (h : m k = some v) : upd m k v = m := by
  funext k2
  by_cases hk : k2 = k
  · subst hk
    simp [upd, h]
  · simp [upd, hk]

theorem upd_isSome {α : Type} (m : Nat → Option α) (k k2 : Nat) (v : α)
    (h : (m k2).isSome = true) : (upd m k v k2).isSome = true := by
  by_cases hk : k2 = k
  · subst hk
    simp [upd]
  · simp [upd, hk, h]

theorem alook_mem {α : Type} (l : List (Nat × α)) (k : Nat) (v : α)
    (h : alook l k = some v) : (k, v) ∈ l := by
  induction l with
  | nil => simp [alook] at h
  | cons p l ih =>
    by_cases hp : p.1 = k
    · simp [alook, hp] at h
      subst hp
      subst h
      simp
    · simp [alook, hp] at h
      exact List.mem_cons_of_mem _ (ih h)

theorem mem_aset {α : Type} (l : List (Nat × α)) (k : Nat) (v : α) (p : Nat × α)
    (h : p ∈ aset l k v) : p = (k, v) ∨ p ∈ l := by
  induction l with
  | nil => simp [aset] at h
  | cons q l ih =>
    by_cases hq : q.1 = k
    · simp [aset, hq, List.mem_cons] at h
      rcases h with h | h
      · exact Or.inl h
      · exact Or.inr (List.mem_cons_of_mem _ h)
    · simp [aset, hq, List.mem_cons] at h
      rcases h with h | h
      · refine Or.inr ?_
        rw [h]
        exact List.mem_cons_self _ _
      · rcases ih h with h2 | h2
        · exact Or.inl h2
        · exact Or.inr (List.mem_cons_of_mem _ h2)

theorem alook_aset_self {α : Type} (l : List (Nat × α)) (k : Nat) (d v : α)
    (h : alook l k = some d) : alook (aset l k v) k = some v := by
  induction l with
  | nil => simp [alook] at h
  | cons p l ih =>
    by_cases hp : p.1 = k
    · simp [aset, hp, alook]
    · simp [alook, hp] at h
      simp [aset, hp, alook, ih h]

theorem alook_aset_ne {α : Type} (l : List (Nat × α)) (k k2 : Nat) (v : α)
    (h : k2 ≠ k) : alook (aset l k v) k2 = alook l k2 := by
  induction l with
  | nil => simp [aset]
  | cons p l ih =>
    by_cases hp : p.1 = k
    · simp [aset, hp, alook, Ne.symm h]
    · simp [aset, hp, alook]
      by_cases hp2 : p.1 = k2
      · simp [hp2]
      · simp [hp2, ih]

theorem disputedSum_aset (c : Nat) (l : List (Nat × Transaction)) (k : Nat)
    (d v : Transaction) (h : alook l k = some d) :
    disputedSum c (aset l k v) = disputedSum c l - contrib c d + contrib c v := by
  induction l with
  | nil => simp [alook] at h
  | cons p l ih =>
    by_cases hp : p.1 = k
    · simp [alook, hp] at h
      subst h
      simp [aset, hp, disputedSum]
      ring
    · simp [alook, hp] at h
      simp [aset, hp, disputedSum, ih h]
      ring

theorem disputedSum_nonneg (c : Nat) (l : List (Nat × Transaction))
    (h : ∀ p ∈ l, ∃ q, p.2.amount = some q ∧ 0 ≤ q) : 0 ≤ disputedSum c l := by
  induction l with
  | nil => simp [disputedSum]
  | cons p l ih =>
    have hp := h p (by simp)
    rcases hp with ⟨q, hq, hq0⟩
    have h2 : 0 ≤ disputedSum c l := ih (fun p2 hp2 => h p2 (by simp [hp2]))
    have h3 : 0 ≤ contrib c p.2 := by
      unfold contrib
      split
      · simp [hq, hq0]
      · exact le_refl 0
    rw [disputedSum]
    exact add_nonneg h3 h2

theorem disputedSum_eq_zero (c : Nat) (l : List (Nat × Transaction))
    (h : ∀ p ∈ l, p.2.client ≠ c) : disputedSum c l = 0 := by
  induction l with
  | nil => simp [disputedSum]
  | cons p l ih =>
    have hp := h p (by simp)
    have h2 := ih (fun p2 hp2 => h p2 (by simp [hp2]))
    simp [disputedSum, contrib, hp, h2]

theorem Account.transaction_balance (a : Account) (v : TransactionVariant)
    (q : Int) (a2 : Account) (hbal : a.total = a.available + a.held)
    (h : a.transaction v q = Except.ok a2) : a2.total = a2.available + a2.held := by
  unfold Account.transaction at h
  by_cases hl : a.locked
  · simp [hl] at h
  · simp [hl] at h
    cases v with
    | deposit =>
      simp [Account.deposit] at h
      subst h
      show a.total + q = a.available + q + a.held
      omega
    | withdrawal =>
      rw [Account.withdraw] at h
      by_cases hw : a.available < q
      · simp [hw] at h
      · simp [hw] at h
        subst h
        show a.total - q = a.available - q + a.held
        omega
    | dispute =>
      simp [Account.dispute] at h
      subst h
      show a.total = a.available - q + (a.held + q)
      omega
    | resolve =>
      simp [Account.resolve] at h
      subst h
      show a.total = a.available + q + (a.held - q)
      omega
    | chargeback =>
      simp [Account.chargeback] at h
      subst h
      show a.total - q = a.available + (a.held - q)
      omega

theorem Account.transaction_locked (a : Account) (v : TransactionVariant) (q : Int)
    (h : a.locked = true) :
    a.transaction v q = Except.error TransactionError.lockedAccount := by
  simp [Account.transaction, h]

theorem goodTx_amount (t : Transaction) (q : Int) (hg : goodTx t = true)
    (hq : t.amount = some q) : 0 ≤ q := by
  unfold goodTx at hg
  rw [hq] at hg
  simp at hg
  exact hg.1

theorem goodTx_disputed (t : Transaction) (hg : goodTx t = true) :
    t.disputed = false := by
  unfold goodTx at hg
  simp at hg
  exact hg.2

theorem insert_err_base (e : PaymentEngine) (t : Transaction) (e2 : PaymentEngine)
    (err : TransactionError) (h : e.insert t = some (e2, Except.error err)) :
    e2 = baseE e t := by
  cases hv : t.variant with
  | deposit =>
    simp only [PaymentEngine.insert, hv] at h
    by_cases hdup : (alook e.transactions t.tx).isSome = true
    · rw [if_pos hdup] at h
      injection h with h2
      injection h2 with he hr
      exact he.symm
    · rw [if_neg hdup] at h
      cases ham : t.amount with
      | none => simp only [ham] at h; exact absurd h (by simp)
      | some q =>
        simp only [ham] at h
        cases htr : ((e.accounts t.client).getD (Account.new t.client)).transaction
            TransactionVariant.deposit q with
        | error err2 =>
          simp only [htr] at h
          injection h with h2
          injection h2 with he hr
          exact he.symm
        | ok a2 =>
          simp only [htr] at h
          injection h with h2
          injection h2 with he hr
          exact absurd hr (by simp)
  | withdrawal =>
    simp only [PaymentEngine.insert, hv] at h
    by_cases hdup : (alook e.transactions t.tx).isSome = true
    · rw [if_pos hdup] at h
      injection h with h2
      injection h2 with he hr
      exact he.symm
    · rw [if_neg hdup] at h
      cases ham : t.amount with
      | none => simp only [ham] at h; exact absurd h (by simp)
      | some q =>
        simp only [ham] at h
        cases htr : ((e.accounts t.client).getD (Account.new t.client)).transaction
            TransactionVariant.withdrawal q with
        | error err2 =>
          simp only [htr] at h
          injection h with h2
          injection h2 with he hr
          exact he.symm
        | ok a2 =>
          simp only [htr] at h
          injection h with h2
          injection h2 with he hr
          exact absurd hr (by simp)
  | dispute =>
    simp only [PaymentEngine.insert, hv] at h
    cases hdt : alook e.transactions t.tx with
    | none =>
      simp only [hdt] at h
      injection h with h2
      injection h2 with he hr
      exact he.symm
    | some dtx =>
      simp only [hdt] at h
      by_cases hcl : dtx.client ≠ t.client
      · rw [if_pos hcl] at h
        injection h with h2
        injection h2 with he hr
        exact he.symm
      · rw [if_neg hcl] at h
        by_cases hdi : dtx.disputed = true
        · rw [if_pos hdi] at h
          injection h with h2
          injection h2 with he hr
          exact he.symm
        · rw [if_neg hdi] at h
          cases ham : dtx.amount with
          | none => simp only [ham] at h; exact absurd h (by simp)
          | some q =>
            simp only [ham] at h
            cases htr : ((e.accounts t.client).getD (Account.new t.client)).transaction
                TransactionVariant.dispute q with
            | error err2 =>
              simp only [htr] at h
              injection h with h2
              injection h2 with he hr
              exact he.symm
            | ok a2 =>
              simp only [htr] at h
              injection h with h2
              injection h2 with he hr
              exact absurd hr (by simp)
  | resolve =>
    simp only [PaymentEngine.insert, hv] at h
    cases hdt : alook e.transactions t.tx with
    | none =>
      simp only [hdt] at h
      injection h with h2
      injection h2 with he hr
      exact he.symm
    | some dtx =>
      simp only [hdt] at h
      by_cases hcl : dtx.client ≠ t.client
      · rw [if_pos hcl] at h
        injection h with h2
        injection h2 with he hr
        exact he.symm
      · rw [if_neg hcl] at h
        by_cases hdi : (!dtx.disputed) = true
        · rw [if_pos hdi] at h
          injection h with h2
          injection h2 with he hr
          exact he.symm
        · rw [if_neg hdi] at h
          cases ham : dtx.amount with
          | none => simp only [ham] at h; exact absurd h (by simp)
          | some q =>
            simp only [ham] at h
            cases htr : ((e.accounts t.client).getD (Account.new t.client)).transaction
                TransactionVariant.resolve q with
            | error err2 =>
              simp only [htr] at h
              injection h with h2
              injection h2 with he hr
              exact he.symm
            | ok a2 =>
              simp only [htr] at h
              injection h with h2
              injection h2 with he hr
              exact absurd hr (by simp)
  | chargeback =>
    simp only [PaymentEngine.insert, hv] at h
    cases hdt : alook e.transactions t.tx with
    | none =>
      simp only [hdt] at h
      injection h with h2
      injection h2 with he hr
      exact he.symm
    | some dtx =>
      simp only [hdt] at h
      by_cases hcl : dtx.client ≠ t.client
      · rw [if_pos hcl] at h
        injection h with h2
        injection h2 with he hr
        exact he.symm
      · rw [if_neg hcl] at h
        by_cases hdi : (!dtx.disputed) = true
        · rw [if_pos hdi] at h
          injection h with h2
          injection h2 with he hr
          exact he.symm
        · rw [if_neg hdi] at h
          cases ham : dtx.amount with
          | none => simp only [ham] at h; exact absurd h (by simp)
          | some q =>
            simp only [ham] at h
            cases htr : ((e.accounts t.client).getD (Account.new t.client)).transaction
                TransactionVariant.chargeback q with
            | error err2 =>
              simp only [htr] at h
              injection h with h2
              injection h2 with he hr
              exact he.symm
            | ok a2 =>
              simp only [htr] at h
              injection h with h2
              injection h2 with he hr
              exact absurd hr (by simp)

theorem insert_ok_spec (e : PaymentEngine) (t : Transaction) (e2 : PaymentEngine)
    (h : e.insert t = some (e2, Except.ok ())) :
    ((t.variant = TransactionVariant.deposit ∨ t.variant = TransactionVariant.withdrawal) ∧
      alook e.transactions t.tx = none ∧
      ∃ q a2, t.amount = some q ∧ (acc0 e t).transaction t.variant q = Except.ok a2 ∧
        e2 = { transactions := (t.tx, t) :: e.transactions,
               accounts := upd (upd e.accounts t.client (acc0 e t)) t.client a2 }) ∨
    (t.variant = TransactionVariant.dispute ∧
      ∃ dtx q a2, alook e.transactions t.tx = some dtx ∧ dtx.client = t.client ∧
        dtx.disputed = false ∧ dtx.amount = some q ∧
        (acc0 e t).transaction TransactionVariant.dispute q = Except.ok a2 ∧
        e2 = { transactions := aset e.transactions t.tx { dtx with disputed := true },
               accounts := upd (upd e.accounts t.client (acc0 e t)) t.client a2 }) ∨
    ((t.variant = TransactionVariant.resolve ∨ t.variant = TransactionVariant.chargeback) ∧
      ∃ dtx q a2, alook e.transactions t.tx = some dtx ∧ dtx.client = t.client ∧
        dtx.disputed = true ∧ dtx.amount = some q ∧
        (acc0 e t).transaction t.variant q = Except.ok a2 ∧
        e2 = { transactions := aset e.transactions t.tx { dtx with disputed := false },
               accounts := upd (upd e.accounts t.client (acc0 e t)) t.client a2 }) := by
  cases hv : t.variant with
  | deposit =>
    simp only [PaymentEngine.insert, hv] at h
    by_cases hdup : (alook e.transactions t.tx).isSome = true
    · rw [if_pos hdup] at h
      injection h with h2
      injection h2 with he hr
      exact absurd hr (by simp)
    · rw [if_neg hdup] at h
      rw [Option.not_isSome_iff_eq_none] at hdup
      cases ham : t.amount with
      | none => simp only [ham] at h; exact absurd h (by simp)
      | some q =>
        simp only [ham] at h
        cases htr : ((e.accounts t.client).getD (Account.new t.client)).transaction
            TransactionVariant.deposit q with
        | error err2 =>
          simp only [htr] at h
          injection h with h2
          injection h2 with he hr
          exact absurd hr (by simp)
        | ok a2 =>
          simp only [htr] at h
          injection h with h2
          injection h2 with he hr
          exact Or.inl ⟨Or.inl rfl, hdup, q, a2, rfl, htr, he.symm⟩
  | withdrawal =>
    simp only [PaymentEngine.insert, hv] at h
    by_cases hdup : (alook e.transactions t.tx).isSome = true
    · rw [if_pos hdup] at h
      injection h with h2
      injection h2 with he hr
      exact absurd hr (by simp)
    · rw [if_neg hdup] at h
      rw [Option.not_isSome_iff_eq_none] at hdup
      cases ham : t.amount with
      | none => simp only [ham] at h; exact absurd h (by simp)
      | some q =>
        simp only [ham] at h
        cases htr : ((e.accounts t.client).getD (Account.new t.client)).transaction
            TransactionVariant.withdrawal q with
        | error err2 =>
          simp only [htr] at h
          injection h with h2
          injection h2 with he hr
          exact absurd hr (by simp)
        | ok a2 =>
          simp only [htr] at h
          injection h with h2
          injection h2 with he hr
          exact Or.inl ⟨Or.inr rfl, hdup, q, a2, rfl, htr, he.symm⟩
  | dispute =>
    simp only [PaymentEngine.insert, hv] at h
    cases hdt : alook e.transactions t.tx with
    | none =>
      simp only [hdt] at h
      injection h with h2
      injection h2 with he hr
      exact absurd hr (by simp)
    | some dtx =>
      simp only [hdt] at h
      by_cases hcl : dtx.client ≠ t.client
      · rw [if_pos hcl] at h
        injection h with h2
        injection h2 with he hr
        exact absurd hr (by simp)
      · rw [if_neg hcl] at h
        by_cases hdi : dtx.disputed = true
        · rw [if_pos hdi] at h
          injection h with h2
          injection h2 with he hr
          exact absurd hr (by simp)
        · rw [if_neg hdi] at h
          cases ham : dtx.amount with
          | none => simp only [ham] at h; exact absurd h (by simp)
          | some q =>
            simp only [ham] at h
            cases htr : ((e.accounts t.client).getD (Account.new t.client)).transaction
                TransactionVariant.dispute q with
            | error err2 =>
              simp only [htr] at h
              injection h with h2
              injection h2 with he hr
              exact absurd hr (by simp)
            | ok a2 =>
              simp only [htr] at h
              injection h with h2
              injection h2 with he hr
              have hcl2 : dtx.client = t.client := not_not.mp hcl
              have hdi2 : dtx.disputed = false := by
                simp at hdi
                exact hdi
              refine Or.inr (Or.inl ⟨rfl, dtx, q, a2, rfl, hcl2, hdi2, ham, htr, ?_⟩)
              rw [ham]
              exact he.symm
  | resolve =>
    simp only [PaymentEngine.insert, hv] at h
    cases hdt : alook e.transactions t.tx with
    | none =>
      simp only [hdt] at h
      injection h with h2
      injection h2 with he hr
      exact absurd hr (by simp)
    | some dtx =>
      simp only [hdt] at h
      by_cases hcl : dtx.client ≠ t.client
      · rw [if_pos hcl] at h
        injection h with h2
        injection h2 with he hr
        exact absurd hr (by simp)
      · rw [if_neg hcl] at h
        by_cases hdi : (!dtx.disputed) = true
        · rw [if_pos hdi] at h
          injection h with h2
          injection h2 with he hr
          exact absurd hr (by simp)
        · rw [if_neg hdi] at h
          cases ham : dtx.amount with
          | none => simp only [ham] at h; exact absurd h (by simp)
          | some q =>
            simp only [ham] at h
            cases htr : ((e.accounts t.client).getD (Account.new t.client)).transaction
                TransactionVariant.resolve q with
            | error err2 =>
              simp only [htr] at h
              injection h with h2
              injection h2 with he hr
              exact absurd hr (by simp)
            | ok a2 =>
              simp only [htr] at h
              injection h with h2
              injection h2 with he hr
              have hcl2 : dtx.client = t.client := not_not.mp hcl
              have hdi2 : dtx.disputed = true := by
                simp at hdi
                exact hdi
              refine Or.inr (Or.inr ⟨Or.inl rfl, dtx, q, a2, rfl, hcl2, hdi2, ham, htr, ?_⟩)
              rw [ham]
              exact he.symm
  | chargeback =>
    simp only [PaymentEngine.insert, hv] at h
    cases hdt : alook e.transactions t.tx with
    | none =>
      simp only [hdt] at h
      injection h with h2
      injection h2 with he hr
      exact absurd hr (by simp)
    | some dtx =>
      simp only [hdt] at h
      by_cases hcl : dtx.client ≠ t.client
      · rw [if_pos hcl] at h
        injection h with h2
        injection h2 with he hr
        exact absurd hr (by simp)
      · rw [if_neg hcl] at h
        by_cases hdi : (!dtx.disputed) = true
        · rw [if_pos hdi] at h
          injection h with h2
          injection h2 with he hr
          exact absurd hr (by simp)
        · rw [if_neg hdi] at h
          cases ham : dtx.amount with
          | none => simp only [ham] at h; exact absurd h (by simp)
          | some q =>
            simp only [ham] at h
            cases htr : ((e.accounts t.client).getD (Account.new t.client)).transaction
                TransactionVariant.chargeback q with
            | error err2 =>
              simp only [htr] at h
              injection h with h2
              injection h2 with he hr
              exact absurd hr (by simp)
            | ok a2 =>
              simp only [htr] at h
              injection h with h2
              injection h2 with he hr
              have hcl2 : dtx.client = t.client := not_not.mp hcl
              have hdi2 : dtx.disputed = true := by
                simp at hdi
                exact hdi
              refine Or.inr (Or.inr ⟨Or.inr rfl, dtx, q, a2, rfl, hcl2, hdi2, ham, htr, ?_⟩)
              rw [ham]
              exact he.symm

theorem insert_none_spec (e : PaymentEngine) (t : Transaction)
    (h : e.insert t = none) :
    ((t.variant = TransactionVariant.deposit ∨ t.variant = TransactionVariant.withdrawal) ∧
      t.amount = none) ∨
    ((t.variant = TransactionVariant.dispute ∨ t.variant = TransactionVariant.resolve ∨
        t.variant = TransactionVariant.chargeback) ∧
      ∃ dtx, alook e.transactions t.tx = some dtx ∧ dtx.amount = none) := by
  cases hv : t.variant with
  | deposit =>
    simp only [PaymentEngine.insert, hv] at h
    by_cases hdup : (alook e.transactions t.tx).isSome = true
    · rw [if_pos hdup] at h
      exact absurd h (by simp)
    · rw [if_neg hdup] at h
      cases ham : t.amount with
      | none => exact Or.inl ⟨Or.inl rfl, rfl⟩
      | some q =>
        simp only [ham] at h
        cases htr : ((e.accounts t.client).getD (Account.new t.client)).transaction
            TransactionVariant.deposit q with
        | error err2 => simp only [htr] at h; exact absurd h (by simp)
        | ok a2 => simp only [htr] at h; exact absurd h (by simp)
  | withdrawal =>
    simp only [PaymentEngine.insert, hv] at h
    by_cases hdup : (alook e.transactions t.tx).isSome = true
    · rw [if_pos hdup] at h
      exact absurd h (by simp)
    · rw [if_neg hdup] at h
      cases ham : t.amount with
      | none => exact Or.inl ⟨Or.inr rfl, rfl⟩
      | some q =>
        simp only [ham] at h
        cases htr : ((e.accounts t.client).getD (Account.new t.client)).transaction
            TransactionVariant.withdrawal q with
        | error err2 => simp only [htr] at h; exact absurd h (by simp)
        | ok a2 => simp only [htr] at h; exact absurd h (by simp)
  | dispute =>
    simp only [PaymentEngine.insert, hv] at h
    cases hdt : alook e.transactions t.tx with
    | none => simp only [hdt] at h; exact absurd h (by simp)
    | some dtx =>
      simp only [hdt] at h
      by_cases hcl : dtx.client ≠ t.client
      · rw [if_pos hcl] at h
        exact absurd h (by simp)
      · rw [if_neg hcl] at h
        by_cases hdi : dtx.disputed = true
        · rw [if_pos hdi] at h
          exact absurd h (by simp)
        · rw [if_neg hdi] at h
          cases ham : dtx.amount with
          | none => exact Or.inr ⟨Or.inl rfl, dtx, rfl, ham⟩
          | some q =>
            simp only [ham] at h
            cases htr : ((e.accounts t.client).getD (Account.new t.client)).transaction
                TransactionVariant.dispute q with
            | error err2 => simp only [htr] at h; exact absurd h (by simp)
            | ok a2 => simp only [htr] at h; exact absurd h (by simp)
  | resolve =>
    simp only [PaymentEngine.insert, hv] at h
    cases hdt : alook e.transactions t.tx with
    | none => simp only [hdt] at h; exact absurd h (by simp)
    | some dtx =>
      simp only [hdt] at h
      by_cases hcl : dtx.client ≠ t.client
      · rw [if_pos hcl] at h
        exact absurd h (by simp)
      · rw [if_neg hcl] at h
        by_cases hdi : (!dtx.disputed) = true
        · rw [if_pos hdi] at h
          exact absurd h (by simp)
        · rw [if_neg hdi] at h
          cases ham : dtx.amount with
          | none => exact Or.inr ⟨Or.inr (Or.inl rfl), dtx, rfl, ham⟩
          | some q =>
            simp only [ham] at h
            cases htr : ((e.accounts t.client).getD (Account.new t.client)).transaction
                TransactionVariant.resolve q with
            | error err2 => simp only [htr] at h; exact absurd h (by simp)
            | ok a2 => simp only [htr] at h; exact absurd h (by simp)
  | chargeback =>
    simp only [PaymentEngine.insert, hv] at h
    cases hdt : alook e.transactions t.tx with
    | none => simp only [hdt] at h; exact absurd h (by simp)
    | some dtx =>
      simp only [hdt] at h
      by_cases hcl : dtx.client ≠ t.client
      · rw [if_pos hcl] at h
        exact absurd h (by simp)
      · rw [if_neg hcl] at h
        by_cases hdi : (!dtx.disputed) = true
        · rw [if_pos hdi] at h
          exact absurd h (by simp)
        · rw [if_neg hdi] at h
          cases ham : dtx.amount with
          | none => exact Or.inr ⟨Or.inr (Or.inr rfl), dtx, rfl, ham⟩
          | some q =>
            simp only [ham] at h
            cases htr : ((e.accounts t.client).getD (Account.new t.client)).transaction
                TransactionVariant.chargeback q with
            | error err2 => simp only [htr] at h; exact absurd h (by simp)
            | ok a2 => simp only [htr] at h; exact absurd h (by simp)

theorem acc0_balance (e : PaymentEngine) (t : Transaction) (hinv : BalInv e) :
    (acc0 e t).total = (acc0 e t).available + (acc0 e t).held := by
  unfold acc0
  cases hc : e.accounts t.client with
  | none => simp [Account.new]
  | some b => simpa using hinv _ _ hc

theorem balInv_base (e : PaymentEngine) (t : Transaction) (hinv : BalInv e) :
    BalInv (baseE e t) := by
  intro c a ha
  simp only [baseE] at ha
  by_cases hc : c = t.client
  · subst hc
    rw [upd_self] at ha
    injection ha with ha
    subst ha
    exact acc0_balance e t hinv
  · rw [upd_ne _ _ _ _ hc] at ha
    exact hinv _ _ ha

theorem balInv_step (e : PaymentEngine) (t : Transaction) (e2 : PaymentEngine)
    (r : Except TransactionError Unit) (hinv : BalInv e)
    (h : e.insert t = some (e2, r)) : BalInv e2 := by
  cases r with
  | error err =>
    rw [insert_err_base e t e2 err h]
    exact balInv_base e t hinv
  | ok u =>
    cases u
    rcases insert_ok_spec e t e2 h with
        ⟨hv, hfresh, q, a2, ham, htr, he⟩ |
        ⟨hv, dtx, q, a2, hdt, hcl, hdi, ham, htr, he⟩ |
        ⟨hv, dtx, q, a2, hdt, hcl, hdi, ham, htr, he⟩ <;>
      · subst he
        intro c a ha
        simp only at ha
        by_cases hc : c = t.client
        · subst hc
          rw [upd_self] at ha
          injection ha with ha
          subst ha
          exact Account.transaction_balance _ _ _ _ (acc0_balance e t hinv) htr
        · rw [upd_ne _ _ _ _ hc, upd_ne _ _ _ _ hc] at ha
          exact hinv _ _ ha

theorem balInv_insertAll (ts : List Transaction) (e e2 : PaymentEngine)
    (hinv : BalInv e) (h : insertAll e ts = some e2) : BalInv e2 := by
  induction ts generalizing e with
  | nil =>
    rw [insertAll] at h
    injection h with h
    subst h
    exact hinv
  | cons t ts ih =>
    rw [insertAll] at h
    cases hi : e.insert t with
    | none => rw [hi] at h; exact absurd h (by simp)
    | some p =>
      obtain ⟨e3, r⟩ := p
      simp only [hi] at h
      exact ih e3 (balInv_step e t e3 r hinv hi) h

theorem balInv_default : BalInv PaymentEngine.default := by
  intro c a ha
  simp [PaymentEngine.default] at ha

/-- C1: after processing any sequence of records through
`PaymentEngine::insert` starting from the empty engine — each record
processed whether it returns `Ok` or `Err` — every account in the registry
satisfies total = available + held. -/
theorem c1_total_eq_available_add_held (ts : List Transaction) (c : Nat) (a : Account)
    (h : (insertAll PaymentEngine.default ts).bind (fun e => e.accounts c) = some a) :
    a.total = a.available + a.held := by
  cases hE : insertAll PaymentEngine.default ts with
  | none => rw [hE] at h; exact absurd h (by simp)
  | some e2 =>
    rw [hE] at h
    simp only [Option.bind] at h
    exact balInv_insertAll ts PaymentEngine.default e2 balInv_default hE c a h

/-- Witness for C1 at a concrete one-record run. -/
theorem c1_total_eq_available_add_held_witness :
    ((insertAll PaymentEngine.default [depRec 1 1 100000]).bind (fun e => e.accounts 1) =
      some ⟨1, 100000, 0, 100000, false⟩) ∧
    (⟨1, 100000, 0, 100000, false⟩ : Account).total =
      (⟨1, 100000, 0, 100000, false⟩ : Account).available +
        (⟨1, 100000, 0, 100000, false⟩ : Account).held :=
  ⟨by decide,
   c1_total_eq_available_add_held [depRec 1 1 100000] 1 ⟨1, 100000, 0, 100000, false⟩
     (by decide)⟩

theorem acc0_eq (e : PaymentEngine) (t : Transaction) (a : Account)
    (ha : e.accounts t.client = some a) : acc0 e t = a := by
  simp [acc0, ha]

theorem baseE_eq_self (e : PaymentEngine) (t : Transaction) (a : Account)
    (ha : e.accounts t.client = some a) : baseE e t = e := by
  unfold baseE
  rw [acc0_eq e t a ha, upd_eq_of_lookup _ _ _ ha]

/-- C2 (amended): once an account is locked, every well-formed record for
that client fails with some error and leaves the whole engine state, the
locked account included, unchanged; the error is not always
`LockedAccount`, because the ledger-level checks of the engine run first. -/
theorem c2_locked_account_rejects_all (e : PaymentEngine) (t : Transaction) (a : Account)
    (hwf : WfLedger e) (hval : t.is_valid = true)
    (ha : e.accounts t.client = some a) (hl : a.locked = true) :
    ∃ err e2, e.insert t = some (e2, Except.error err) ∧ e2 = e := by
  cases hi : e.insert t with
  | none =>
    exfalso
    rcases insert_none_spec e t hi with ⟨hv, ham⟩ | ⟨hv, dtx, hdt, ham⟩
    · rcases hv with hv | hv <;> simp [Transaction.is_valid, hv, ham] at hval
    · have h2 := hwf _ (alook_mem _ _ _ hdt)
      rw [ham] at h2
      simp at h2
  | some p =>
    obtain ⟨e2, r⟩ := p
    cases r with
    | error err =>
      refine ⟨err, e2, rfl, ?_⟩
      rw [insert_err_base e t e2 err hi]
      exact baseE_eq_self e t a ha
    | ok u =>
      exfalso
      cases u
      have hacc : acc0 e t = a := acc0_eq e t a ha
      rcases insert_ok_spec e t e2 hi with
          ⟨hv, hfresh, q, a2, ham, htr, he⟩ |
          ⟨hv, dtx, q, a2, hdt, hcl, hdi, ham, htr, he⟩ |
          ⟨hv, dtx, q, a2, hdt, hcl, hdi, ham, htr, he⟩ <;>
        · rw [hacc, Account.transaction_locked a _ _ hl] at htr
          exact absurd htr (by simp)

/-- C2 counterexample to the claim as stated: after
Deposit(1,1,10.0000); Dispute(1,1); Chargeback(1,1) account 1 is locked,
yet the next record for that account, Dispute(1, tx 99), fails with
`TransactionNotFound`, not `LockedAccount`. -/
theorem c2_counterexample :
    ((insertAll PaymentEngine.default [depRec 1 1 100000, dispRec 1 1, cbRec 1 1]).bind
        (fun e => (e.accounts 1).map Account.locked) = some true) ∧
    ((insertAll PaymentEngine.default [depRec 1 1 100000, dispRec 1 1, cbRec 1 1]).bind
        (fun e => (e.insert (dispRec 1 99)).map (fun p => errKind p.2)) =
      some (some TransactionError.transactionNotFound)) ∧
    TransactionError.transactionNotFound ≠ TransactionError.lockedAccount := by
  decide

/-- Witness for the amended C2 at a concrete locked account. -/
theorem c2_locked_account_rejects_all_witness :
    ∃ err e2, lockedE.insert (depRec 1 5 30000) = some (e2, Except.error err) ∧ e2 = lockedE :=
  c2_locked_account_rejects_all lockedE (depRec 1 5 30000) ⟨1, 0, 0, 0, true⟩
    (fun p hp => absurd hp (List.not_mem_nil p)) (by decide) (by decide) rfl

/-- C4: evaluating the code at the failing input
Deposit(1,1,10.0000); Dispute(1,1); Chargeback(1,1). The chargeback
succeeds and locks the account, but the engine's shared
`Resolve | Chargeback` arm then sets the entry's `disputed` flag back to
`false`, so the entry does not remain disputed, and a subsequent
Resolve(1,1) is rejected only after the entry is consulted, with
`NotDisputed` rather than at the account-lock check. -/
theorem c4_chargeback_not_terminal_in_code :
    ((insertAll PaymentEngine.default [depRec 1 1 100000, dispRec 1 1, cbRec 1 1]).bind
        (fun e => (e.accounts 1).map Account.locked) = some true) ∧
    ((insertAll PaymentEngine.default [depRec 1 1 100000, dispRec 1 1, cbRec 1 1]).bind
        (fun e => (alook e.transactions 1).map Transaction.disputed) = some false) ∧
    ((insertAll PaymentEngine.default [depRec 1 1 100000, dispRec 1 1, cbRec 1 1]).bind
        (fun e => (e.insert (resRec 1 1)).map (fun p => errKind p.2)) =
      some (some TransactionError.notDisputed)) ∧
    ((insertAll PaymentEngine.default [depRec 1 1 100000, dispRec 1 1, cbRec 1 1]).bind
        (fun e => (e.insert (dispRec 1 1)).map (fun p => errKind p.2)) =
      some (some TransactionError.lockedAccount)) := by
  decide

/-- C3 counterexample to the claim as stated: the well-formed sequence
Deposit(1,1,10.0000); Withdrawal(1,2,10.0000); Dispute(1,1) — every record
accepted, no overflow anywhere near — leaves account 1 with
available = -10.0000 < 0, because `Account::dispute` subtracts the
disputed amount from `available` without any nonnegativity check. -/
theorem c3_counterexample :
    ((insertAll PaymentEngine.default [depRec 1 1 100000, wdRec 1 2 100000, dispRec 1 1]).bind
        (fun e => e.accounts 1) =
      some ⟨1, -100000, 100000, 0, false⟩) ∧
    ((-100000 : Int) < 0) ∧
    (∀ t ∈ [depRec 1 1 100000, wdRec 1 2 100000, dispRec 1 1], goodTx t = true) := by
  decide

theorem Account.transaction_ok_held_dw (a : Account) (v : TransactionVariant) (q : Int)
    (a2 : Account)
    (hv : v = TransactionVariant.deposit ∨ v = TransactionVariant.withdrawal)
    (h : a.transaction v q = Except.ok a2) : a2.held = a.held := by
  by_cases hl : a.locked = true
  · rw [Account.transaction_locked a _ _ hl] at h
    exact absurd h (by simp)
  · have hl2 : a.locked = false := by simp at hl; exact hl
    rcases hv with hv | hv <;> subst hv
    · simp only [Account.transaction, hl2] at h
      simp at h
      rw [← h]
      rfl
    · simp only [Account.transaction, hl2] at h
      simp only [Account.withdraw] at h
      by_cases hw : a.available < q
      · rw [if_pos hw] at h
        exact absurd h (by simp)
      · rw [if_neg hw] at h
        simp at h
        rw [← h]

theorem Account.transaction_ok_held_dispute (a : Account) (q : Int) (a2 : Account)
    (h : a.transaction TransactionVariant.dispute q = Except.ok a2) :
    a2.held = a.held + q := by
  by_cases hl : a.locked = true
  · rw [Account.transaction_locked a _ _ hl] at h
    exact absurd h (by simp)
  · have hl2 : a.locked = false := by simp at hl; exact hl
    simp only [Account.transaction, hl2] at h
    simp at h
    rw [← h]
    rfl

theorem Account.transaction_ok_held_rescb (a : Account) (v : TransactionVariant) (q : Int)
    (a2 : Account)
    (hv : v = TransactionVariant.resolve ∨ v = TransactionVariant.chargeback)
    (h : a.transaction v q = Except.ok a2) : a2.held = a.held - q := by
  by_cases hl : a.locked = true
  · rw [Account.transaction_locked a _ _ hl] at h
    exact absurd h (by simp)
  · have hl2 : a.locked = false := by simp at hl; exact hl
    rcases hv with hv | hv <;> subst hv <;>
      · simp only [Account.transaction, hl2] at h
        simp at h
        rw [← h]
        rfl

theorem acc0_held (e : PaymentEngine) (t : Transaction) (hinv : EngineInv e) :
    (acc0 e t).held = disputedSum t.client e.transactions := by
  unfold acc0
  cases hc : e.accounts t.client with
  | none =>
    simp only [Option.getD]
    refine Eq.trans (by rfl) (disputedSum_eq_zero t.client e.transactions ?_).symm
    intro p hp hpc
    have h2 := hinv.ownerHasAccount p hp
    rw [hpc, hc] at h2
    simp at h2
  | some b => simpa using hinv.heldSum _ _ hc

theorem enginv_base (e : PaymentEngine) (t : Transaction) (hinv : EngineInv e) :
    EngineInv (baseE e t) := by
  constructor
  · exact fun p hp => hinv.wfAmount p hp
  · intro p hp
    exact upd_isSome _ _ _ _ (hinv.ownerHasAccount p hp)
  · intro c a ha
    simp only [baseE] at ha
    by_cases hc : c = t.client
    · subst hc
      rw [upd_self] at ha
      injection ha with ha
      subst ha
      exact acc0_held e t hinv
    · rw [upd_ne _ _ _ _ hc] at ha
      exact hinv.heldSum _ _ ha

theorem enginv_ok_dw (e : PaymentEngine) (t : Transaction) (q : Int) (a2 : Account)
    (hinv : EngineInv e) (hg : goodTx t = true)
    (hv : t.variant = TransactionVariant.deposit ∨ t.variant = TransactionVariant.withdrawal)
    (ham : t.amount = some q)
    (htr : (acc0 e t).transaction t.variant q = Except.ok a2) :
    EngineInv { transactions := (t.tx, t) :: e.transactions,
                accounts := upd (upd e.accounts t.client (acc0 e t)) t.client a2 } := by
  constructor
  · intro p hp
    rcases List.mem_cons.mp hp with hp | hp
    · subst hp
      exact ⟨q, ham, goodTx_amount t q hg ham⟩
    · exact hinv.wfAmount p hp
  · intro p hp
    rcases List.mem_cons.mp hp with hp | hp
    · subst hp
      show (upd (upd e.accounts t.client (acc0 e t)) t.client a2 t.client).isSome = true
      rw [upd_self]
      rfl
    · exact upd_isSome _ _ _ _ (upd_isSome _ _ _ _ (hinv.ownerHasAccount p hp))
  · intro c a ha
    have hsum : disputedSum c ((t.tx, t) :: e.transactions) = disputedSum c e.transactions := by
      rw [disputedSum]
      have hz : contrib c t = 0 := by
        unfold contrib
        rw [goodTx_disputed t hg]
        simp
      show contrib c t + disputedSum c e.transactions = disputedSum c e.transactions
      rw [hz]
      ring
    show a.held = disputedSum c ((t.tx, t) :: e.transactions)
    rw [hsum]
    by_cases hc : c = t.client
    · subst hc
      rw [show ({ transactions := (t.tx, t) :: e.transactions,
                  accounts := upd (upd e.accounts t.client (acc0 e t)) t.client a2 } :
              PaymentEngine).accounts = upd (upd e.accounts t.client (acc0 e t)) t.client a2
            from rfl, upd_self] at ha
      injection ha with ha
      subst ha
      rw [Account.transaction_ok_held_dw _ _ _ _ hv htr]
      exact acc0_held e t hinv
    · rw [show ({ transactions := (t.tx, t) :: e.transactions,
                  accounts := upd (upd e.accounts t.client (acc0 e t)) t.client a2 } :
              PaymentEngine).accounts = upd (upd e.accounts t.client (acc0 e t)) t.client a2
            from rfl, upd_ne _ _ _ _ hc, upd_ne _ _ _ _ hc] at ha
      exact hinv.heldSum _ _ ha

theorem enginv_ok_dispute (e : PaymentEngine) (t : Transaction) (dtx : Transaction)
    (q : Int) (a2 : Account) (hinv : EngineInv e)
    (hdt : alook e.transactions t.tx = some dtx) (hcl : dtx.client = t.client)
    (hdi : dtx.disputed = false) (ham : dtx.amount = some q)
    (htr : (acc0 e t).transaction TransactionVariant.dispute q = Except.ok a2) :
    EngineInv { transactions := aset e.transactions t.tx { dtx with disputed := true },
                accounts := upd (upd e.accounts t.client (acc0 e t)) t.client a2 } := by
  have hmem : (t.tx, dtx) ∈ e.transactions := alook_mem _ _ _ hdt
  have hq0 : 0 ≤ q := by
    rcases hinv.wfAmount _ hmem with ⟨q2, hq2, h02⟩
    rw [show ((t.tx, dtx) : Nat × Transaction).2 = dtx from rfl, ham] at hq2
    injection hq2 with hq2
    rw [hq2]
    exact h02
  constructor
  · intro p hp
    rcases mem_aset _ _ _ _ hp with hp | hp
    · subst hp
      exact ⟨q, ham, hq0⟩
    · exact hinv.wfAmount p hp
  · intro p hp
    rcases mem_aset _ _ _ _ hp with hp | hp
    · subst hp
      show (upd (upd e.accounts t.client (acc0 e t)) t.client a2
          ({ dtx with disputed := true } : Transaction).client).isSome = true
      have hc2 : ({ dtx with disputed := true } : Transaction).client = t.client := hcl
      rw [hc2, upd_self]
      rfl
    · exact upd_isSome _ _ _ _ (upd_isSome _ _ _ _ (hinv.ownerHasAccount p hp))
  · intro c a ha
    have hsum := disputedSum_aset c e.transactions t.tx dtx { dtx with disputed := true } hdt
    have hco : contrib c dtx = 0 := by
      simp [contrib, hdi]
    show a.held = disputedSum c (aset e.transactions t.tx { dtx with disputed := true })
    rw [hsum, hco]
    by_cases hc : c = t.client
    · subst hc
      have hcn : contrib t.client { dtx with disputed := true } = q := by
        simp [contrib, hcl, ham]
      rw [hcn]
      rw [show ({ transactions := aset e.transactions t.tx { dtx with disputed := true },
                  accounts := upd (upd e.accounts t.client (acc0 e t)) t.client a2 } :
              PaymentEngine).accounts = upd (upd e.accounts t.client (acc0 e t)) t.client a2
            from rfl, upd_self] at ha
      injection ha with ha
      subst ha
      rw [Account.transaction_ok_held_dispute _ _ _ htr, acc0_held e t hinv]
      ring
    · have hcn : contrib c { dtx with disputed := true } = 0 := by
        have hne : ¬ dtx.client = c := by
          rw [hcl]
          exact fun hh => hc hh.symm
        simp [contrib, hne]
      rw [hcn]
      rw [show ({ transactions := aset e.transactions t.tx { dtx with disputed := true },
                  accounts := upd (upd e.accounts t.client (acc0 e t)) t.client a2 } :
              PaymentEngine).accounts = upd (upd e.accounts t.client (acc0 e t)) t.client a2
            from rfl, upd_ne _ _ _ _ hc, upd_ne _ _ _ _ hc] at ha
      rw [hinv.heldSum _ _ ha]
      ring

theorem enginv_ok_rescb (e : PaymentEngine) (t : Transaction) (dtx : Transaction)
    (q : Int) (a2 : Account) (hinv : EngineInv e)
    (hv : t.variant = TransactionVariant.resolve ∨ t.variant = TransactionVariant.chargeback)
    (hdt : alook e.transactions t.tx = some dtx) (hcl : dtx.client = t.client)
    (hdi : dtx.disputed = true) (ham : dtx.amount = some q)
    (htr : (acc0 e t).transaction t.variant q = Except.ok a2) :
    EngineInv { transactions := aset e.transactions t.tx { dtx with disputed := false },
                accounts := upd (upd e.accounts t.client (acc0 e t)) t.client a2 } := by
  have hmem : (t.tx, dtx) ∈ e.transactions := alook_mem _ _ _ hdt
  have hq0 : 0 ≤ q := by
    rcases hinv.wfAmount _ hmem with ⟨q2, hq2, h02⟩
    rw [show ((t.tx, dtx) : Nat × Transaction).2 = dtx from rfl, ham] at hq2
    injection hq2 with hq2
    rw [hq2]
    exact h02
  constructor
  · intro p hp
    rcases mem_aset _ _ _ _ hp with hp | hp
    · subst hp
      exact ⟨q, ham, hq0⟩
    · exact hinv.wfAmount p hp
  · intro p hp
    rcases mem_aset _ _ _ _ hp with hp | hp
    · subst hp
      show (upd (upd e.accounts t.client (acc0 e t)) t.client a2
          ({ dtx with disputed := false } : Transaction).client).isSome = true
      have hc2 : ({ dtx with disputed := false } : Transaction).client = t.client := hcl
      rw [hc2, upd_self]
      rfl
    · exact upd_isSome _ _ _ _ (upd_isSome _ _ _ _ (hinv.ownerHasAccount p hp))
  · intro c a ha
    have hsum := disputedSum_aset c e.transactions t.tx dtx { dtx with disputed := false } hdt
    have hcn : contrib c { dtx with disputed := false } = 0 := by
      simp [contrib]
    show a.held = disputedSum c (aset e.transactions t.tx { dtx with disputed := false })
    rw [hsum, hcn]
    by_cases hc : c = t.client
    · subst hc
      have hco : contrib t.client dtx = q := by
        simp [contrib, hcl, hdi, ham]
      rw [hco]
      rw [show ({ transactions := aset e.transactions t.tx { dtx with disputed := false },
                  accounts := upd (upd e.accounts t.client (acc0 e t)) t.client a2 } :
              PaymentEngine).accounts = upd (upd e.accounts t.client (acc0 e t)) t.client a2
            from rfl, upd_self] at ha
      injection ha with ha
      subst ha
      rw [Account.transaction_ok_held_rescb _ _ _ _ hv htr, acc0_held e t hinv]
      ring
    · have hco : contrib c dtx = 0 := by
        have hne : ¬ dtx.client = c := by
          rw [hcl]
          exact fun hh => hc hh.symm
        simp [contrib, hne]
      rw [hco]
      rw [show ({ transactions := aset e.transactions t.tx { dtx with disputed := false },
                  accounts := upd (upd e.accounts t.client (acc0 e t)) t.client a2 } :
              PaymentEngine).accounts = upd (upd e.accounts t.client (acc0 e t)) t.client a2
            from rfl, upd_ne _ _ _ _ hc, upd_ne _ _ _ _ hc] at ha
      rw [hinv.heldSum _ _ ha]
      ring

theorem enginv_step (e : PaymentEngine) (t : Transaction) (e2 : PaymentEngine)
    (r : Except TransactionError Unit) (hinv : EngineInv e) (hg : goodTx t = true)
    (h : e.insert t = some (e2, r)) : EngineInv e2 := by
  cases r with
  | error err =>
    rw [insert_err_base e t e2 err h]
    exact enginv_base e t hinv
  | ok u =>
    cases u
    rcases insert_ok_spec e t e2 h with
        ⟨hv, hfresh, q, a2, ham, htr, he⟩ |
        ⟨hv, dtx, q, a2, hdt, hcl, hdi, ham, htr, he⟩ |
        ⟨hv, dtx, q, a2, hdt, hcl, hdi, ham, htr, he⟩
    · subst he
      exact enginv_ok_dw e t q a2 hinv hg hv ham htr
    · subst he
      exact enginv_ok_dispute e t dtx q a2 hinv hdt hcl hdi ham htr
    · subst he
      exact enginv_ok_rescb e t dtx q a2 hinv hv hdt hcl hdi ham htr

theorem enginv_insertAll (ts : List Transaction) (e e2 : PaymentEngine)
    (hinv : EngineInv e) (hgood : ∀ t ∈ ts, goodTx t = true)
    (h : insertAll e ts = some e2) : EngineInv e2 := by
  induction ts generalizing e with
  | nil =>
    rw [insertAll] at h
    injection h with h
    subst h
    exact hinv
  | cons t ts ih =>
    rw [insertAll] at h
    cases hi : e.insert t with
    | none => rw [hi] at h; exact absurd h (by simp)
    | some p =>
      obtain ⟨e3, r⟩ := p
      simp only [hi] at h
      exact ih e3 (enginv_step e t e3 r hinv (hgood t (by simp)) hi)
        (fun t2 ht2 => hgood t2 (List.mem_cons_of_mem t ht2)) h

theorem enginv_default : EngineInv PaymentEngine.default := by
  refine ⟨?_, ?_, ?_⟩
  · intro p hp
    exact absurd hp (List.not_mem_nil p)
  · intro p hp
    exact absurd hp (List.not_mem_nil p)
  · intro c a ha
    simp [PaymentEngine.default] at ha

/-- C3 (amended): after processing any sequence of input-layer records
(nonnegative amounts, `disputed` flag false) from the empty engine, every
account's held funds are nonnegative; `available` however can go negative
without any overflow, because `Account::dispute` subtracts from it
unchecked. -/
theorem c3_held_nonneg (ts : List Transaction) (c : Nat) (a : Account)
    (hgood : ∀ t ∈ ts, goodTx t = true)
    (h : (insertAll PaymentEngine.default ts).bind (fun e => e.accounts c) = some a) :
    0 ≤ a.held := by
  cases hE : insertAll PaymentEngine.default ts with
  | none => rw [hE] at h; exact absurd h (by simp)
  | some e2 =>
    rw [hE] at h
    simp only [Option.bind] at h
    have hinv := enginv_insertAll ts PaymentEngine.default e2 enginv_default hgood hE
    rw [hinv.heldSum c a h]
    exact disputedSum_nonneg c e2.transactions hinv.wfAmount

/-- Witness for the amended C3 at a concrete deposit-then-dispute run. -/
theorem c3_held_nonneg_witness :
    (∀ t ∈ [depRec 1 1 100000, dispRec 1 1], goodTx t = true) ∧
    ((insertAll PaymentEngine.default [depRec 1 1 100000, dispRec 1 1]).bind
        (fun e => e.accounts 1) = some ⟨1, 0, 100000, 100000, false⟩) ∧
    (0 : Int) ≤ (⟨1, 0, 100000, 100000, false⟩ : Account).held :=
  ⟨by decide, by decide,
   c3_held_nonneg [depRec 1 1 100000, dispRec 1 1] 1 ⟨1, 0, 100000, 100000, false⟩
     (by decide) (by decide)⟩

theorem insert_dispute_ok (e : PaymentEngine) (t : Transaction) (dtx : Transaction)
    (q : Int) (a : Account)
    (hv : t.variant = TransactionVariant.dispute)
    (ha : e.accounts t.client = some a) (hl : a.locked = false)
    (hdt : alook e.transactions t.tx = some dtx) (hcl : dtx.client = t.client)
    (hdi : dtx.disputed = false) (ham : dtx.amount = some q) :
    e.insert t = some ({ transactions := aset e.transactions t.tx { dtx with disputed := true },
                         accounts := upd (upd e.accounts t.client a) t.client (a.dispute q) },
                       Except.ok ()) := by
  simp only [PaymentEngine.insert, hv, ha, Option.getD_some, hdt]
  rw [if_neg (show ¬dtx.client ≠ t.client from fun hh => hh hcl)]
  rw [if_neg (show ¬dtx.disputed = true from by rw [hdi]; simp)]
  simp only [ham]
  rw [show a.transaction TransactionVariant.dispute q = Except.ok (a.dispute q) from by
    simp [Account.transaction, hl]]

theorem insert_resolve_ok (e : PaymentEngine) (t : Transaction) (dtx : Transaction)
    (q : Int) (a : Account)
    (hv : t.variant = TransactionVariant.resolve)
    (ha : e.accounts t.client = some a) (hl : a.locked = false)
    (hdt : alook e.transactions t.tx = some dtx) (hcl : dtx.client = t.client)
    (hdi : dtx.disputed = true) (ham : dtx.amount = some q) :
    e.insert t = some ({ transactions := aset e.transactions t.tx { dtx with disputed := false },
                         accounts := upd (upd e.accounts t.client a) t.client (a.resolve q) },
                       Except.ok ()) := by
  simp only [PaymentEngine.insert, hv, ha, Option.getD_some, hdt]
  rw [if_neg (show ¬dtx.client ≠ t.client from fun hh => hh hcl)]
  rw [if_neg (show ¬(!dtx.disputed) = true from by rw [hdi]; simp)]
  simp only [ham]
  rw [show a.transaction TransactionVariant.resolve q = Except.ok (a.resolve q) from by
    simp [Account.transaction, hl]]

/-- C5: from any engine state, for an unlocked account and a ledger entry
owned by the record's client and not currently disputed, a Dispute followed
immediately by a Resolve on the same transaction id both succeed and
restore the account — available, held, total, locked and all — to exactly
its pre-dispute value. -/
theorem c5_dispute_resolve_roundtrip (e : PaymentEngine) (c tnum : Nat) (a : Account)
    (dtx : Transaction) (q : Int)
    (ha : e.accounts c = some a) (hl : a.locked = false)
    (hdt : alook e.transactions tnum = some dtx) (hcl : dtx.client = c)
    (hdi : dtx.disputed = false) (ham : dtx.amount = some q) :
    ∃ e2 e3, e.insert (dispRec c tnum) = some (e2, Except.ok ())
      ∧ e2.insert (resRec c tnum) = some (e3, Except.ok ())
      ∧ e3.accounts c = some a := by
  have h1 := insert_dispute_ok e (dispRec c tnum) dtx q a rfl ha hl hdt hcl hdi ham
  have h2 := insert_resolve_ok
      { transactions := aset e.transactions tnum { dtx with disputed := true },
        accounts := upd (upd e.accounts c a) c (a.dispute q) }
      (resRec c tnum) { dtx with disputed := true } q (a.dispute q)
      rfl (upd_self _ _ _) hl (alook_aset_self _ _ _ _ hdt) hcl rfl ham
  refine ⟨_, _, h1, h2, ?_⟩
  have hacc : (a.dispute q).resolve q = a := by
      cases a with
      | mk cl av he tot lo =>
        simp [Account.dispute, Account.resolve, Account.mk.injEq]
  show upd (upd _ c (a.dispute q)) c ((a.dispute q).resolve q) c = some a
  rw [upd_self, hacc]

/-- Witness for C5 at a concrete engine holding one deposit. -/
theorem c5_dispute_resolve_roundtrip_witness :
    ∃ e2 e3, eng1.insert (dispRec 1 1) = some (e2, Except.ok ())
      ∧ e2.insert (resRec 1 1) = some (e3, Except.ok ())
      ∧ e3.accounts 1 = some ⟨1, 100000, 0, 100000, false⟩ :=
  c5_dispute_resolve_roundtrip eng1 1 1 ⟨1, 100000, 0, 100000, false⟩
    (depRec 1 1 100000) 100000 (by decide) rfl (by decide) rfl rfl rfl

theorem upd_getD_preserve (m : Nat → Option Account) (k : Nat) :
    ∀ c a, m c = some a → upd m k ((m k).getD (Account.new k)) c = some a := by
  intro c a hca
  by_cases hc : c = k
  · subst hc
    rw [hca]
    simp [upd]
  · rw [upd_ne _ _ _ _ hc]
    exact hca

/-- C6: a Dispute, Resolve or Chargeback whose client id differs from the
client id stored on the referenced ledger entry fails with
`TransactionNotFound` — the same outcome as a missing transaction id — and
mutates neither the ledger nor any existing account. -/
theorem c6_ownership_mismatch (e : PaymentEngine) (t : Transaction) (dtx : Transaction)
    (hv : t.variant = TransactionVariant.dispute ∨ t.variant = TransactionVariant.resolve ∨
      t.variant = TransactionVariant.chargeback)
    (hdt : alook e.transactions t.tx = some dtx) (hcl : dtx.client ≠ t.client) :
    ∃ e2, e.insert t = some (e2, Except.error TransactionError.transactionNotFound)
      ∧ e2.transactions = e.transactions
      ∧ (∀ c a, e.accounts c = some a → e2.accounts c = some a) := by
  refine ⟨{ e with
    accounts := upd e.accounts t.client ((e.accounts t.client).getD (Account.new t.client)) },
    ?_, rfl, upd_getD_preserve e.accounts t.client⟩
  rcases hv with hv | hv | hv <;>
    · simp only [PaymentEngine.insert, hv, hdt]
      rw [if_pos hcl]

/-- Witness for C6: client 2 disputing client 1's deposit. -/
theorem c6_ownership_mismatch_witness :
    ∃ e2, eng1.insert (dispRec 2 1) = some (e2, Except.error TransactionError.transactionNotFound)
      ∧ e2.transactions = eng1.transactions
      ∧ (∀ c a, eng1.accounts c = some a → e2.accounts c = some a) :=
  c6_ownership_mismatch eng1 (dispRec 2 1) (depRec 1 1 100000) (Or.inl rfl) (by decide)
    (by decide)

/-- C7: if a Deposit/Withdrawal record is accepted and a second
Deposit/Withdrawal carrying the same transaction id is processed later, the
second fails with the duplicate-transaction error (`DuplicateTransaction`
in the spec's taxonomy, `TransactionAlreadyExist` in error.rs), the ledger
still holds the first record for that id, and no account changes. -/
theorem c7_duplicate_tx_id (e : PaymentEngine) (t1 t2 : Transaction) (e1 : PaymentEngine)
    (hv1 : t1.variant = TransactionVariant.deposit ∨ t1.variant = TransactionVariant.withdrawal)
    (hv2 : t2.variant = TransactionVariant.deposit ∨ t2.variant = TransactionVariant.withdrawal)
    (htx : t2.tx = t1.tx)
    (h1 : e.insert t1 = some (e1, Except.ok ())) :
    ∃ e2, e1.insert t2 = some (e2, Except.error TransactionError.transactionAlreadyExist)
      ∧ e2.transactions = e1.transactions
      ∧ alook e1.transactions t2.tx = some t1
      ∧ (∀ c a, e1.accounts c = some a → e2.accounts c = some a) := by
  have hl1 : alook e1.transactions t2.tx = some t1 := by
    rcases insert_ok_spec e t1 e1 h1 with
        ⟨_, hfresh, q, a2, ham, htr, he⟩ | ⟨hv, _⟩ | ⟨hv, _⟩
    · rw [he, htx]
      simp [alook]
    · rcases hv1 with h | h <;> rw [hv] at h <;> simp at h
    · rcases hv1 with h | h <;> rcases hv with hv | hv <;> rw [hv] at h <;> simp at h
  have hdup : (alook e1.transactions t2.tx).isSome = true := by
    rw [hl1]
    rfl
  refine ⟨{ e1 with
    accounts := upd e1.accounts t2.client ((e1.accounts t2.client).getD (Account.new t2.client)) },
    ?_, rfl, hl1, upd_getD_preserve e1.accounts t2.client⟩
  rcases hv2 with hv | hv <;>
    · simp only [PaymentEngine.insert, hv]
      rw [if_pos hdup]

/-- Witness for C7: a second deposit reusing tx id 1. -/
theorem c7_duplicate_tx_id_witness :
    ∃ e2, eng1.insert (wdRec 2 1 50000) =
        some (e2, Except.error TransactionError.transactionAlreadyExist)
      ∧ e2.transactions = eng1.transactions
      ∧ alook eng1.transactions 1 = some (depRec 1 1 100000)
      ∧ (∀ c a, eng1.accounts c = some a → e2.accounts c = some a) :=
  c7_duplicate_tx_id PaymentEngine.default (depRec 1 1 100000) (wdRec 2 1 50000) eng1
    (Or.inl rfl) (Or.inr rfl) rfl (by rfl)

/-- C8: a Withdrawal on an unlocked account with a fresh transaction id
withdraws the amount from `available` and `total` and stores the record in
the ledger when covered, and fails with `InsufficientFunds` leaving the
whole engine unchanged when `available < amount`. -/
theorem c8_withdrawal_semantics (e : PaymentEngine) (t : Transaction) (q : Int) (a : Account)
    (hv : t.variant = TransactionVariant.withdrawal) (ham : t.amount = some q)
    (ha : e.accounts t.client = some a) (hl : a.locked = false)
    (hfresh : alook e.transactions t.tx = none) :
    (a.available < q →
      ∃ e2, e.insert t = some (e2, Except.error TransactionError.insufficientFunds) ∧ e2 = e)
    ∧ (q ≤ a.available →
      ∃ e2, e.insert t = some (e2, Except.ok ())
        ∧ e2.accounts t.client =
            some { a with available := a.available - q, total := a.total - q }
        ∧ e2.transactions = (t.tx, t) :: e.transactions) := by
  constructor
  · intro hlt
    refine ⟨{ e with accounts := upd e.accounts t.client a }, ?_, ?_⟩
    · simp only [PaymentEngine.insert, hv, ha, Option.getD_some]
      rw [if_neg (show ¬(alook e.transactions t.tx).isSome = true from by rw [hfresh]; simp)]
      simp only [ham]
      rw [show a.transaction TransactionVariant.withdrawal q =
          Except.error TransactionError.insufficientFunds from by
        simp [Account.transaction, hl, Account.withdraw, hlt]]
    · show { e with accounts := upd e.accounts t.client a } = e
      rw [upd_eq_of_lookup _ _ _ ha]
  · intro hge
    have hnlt : ¬ a.available < q := not_lt.mpr hge
    refine ⟨{ transactions := (t.tx, t) :: e.transactions,
              accounts := upd (upd e.accounts t.client a) t.client
                { a with available := a.available - q, total := a.total - q } }, ?_, ?_, rfl⟩
    · simp only [PaymentEngine.insert, hv, ha, Option.getD_some]
      rw [if_neg (show ¬(alook e.transactions t.tx).isSome = true from by rw [hfresh]; simp)]
      simp only [ham]
      rw [show a.transaction TransactionVariant.withdrawal q =
          Except.ok { a with available := a.available - q, total := a.total - q } from by
        simp [Account.transaction, hl, Account.withdraw, hnlt]]
    · show upd (upd e.accounts t.client a) t.client
        { a with available := a.available - q, total := a.total - q } t.client = some _
      rw [upd_self]

/-- Witness for C8: a covered and an uncovered withdrawal on a 10.0000
balance. -/
theorem c8_withdrawal_semantics_witness :
    (∃ e2, eng1.insert (wdRec 1 2 200000) =
        some (e2, Except.error TransactionError.insufficientFunds) ∧ e2 = eng1)
    ∧ (∃ e2, eng1.insert (wdRec 1 2 40000) = some (e2, Except.ok ())
        ∧ e2.accounts 1 = some ⟨1, 60000, 0, 60000, false⟩
        ∧ e2.transactions = (2, wdRec 1 2 40000) :: eng1.transactions) :=
  ⟨(c8_withdrawal_semantics eng1 (wdRec 1 2 200000) 200000 ⟨1, 100000, 0, 100000, false⟩
      rfl rfl (by decide) rfl (by decide)).1 (by decide),
   (c8_withdrawal_semantics eng1 (wdRec 1 2 40000) 40000 ⟨1, 100000, 0, 100000, false⟩
      rfl rfl (by decide) rfl (by decide)).2 (by decide)⟩

/-- C9: the registry lazily creates a zeroed, unlocked account on the
first record naming a client id, and the account is present afterwards —
with exactly the `Account::new` state — even when the record itself
returns an error such as `TransactionNotFound`. -/
theorem c9_lazy_account_creation (e : PaymentEngine) (t : Transaction) (e2 : PaymentEngine)
    (r : Except TransactionError Unit) (hfresh : e.accounts t.client = none)
    (h : e.insert t = some (e2, r)) :
    (∃ a2, e2.accounts t.client = some a2)
    ∧ (∀ err, r = Except.error err → e2.accounts t.client = some (Account.new t.client)) := by
  constructor
  · cases r with
    | error err =>
      rw [insert_err_base e t e2 err h]
      exact ⟨acc0 e t, by
        show upd e.accounts t.client (acc0 e t) t.client = some (acc0 e t)
        exact upd_self _ _ _⟩
    | ok u =>
      cases u
      rcases insert_ok_spec e t e2 h with
          ⟨_, _, q, a2, _, _, he⟩ |
          ⟨_, dtx, q, a2, _, _, _, _, _, he⟩ |
          ⟨_, dtx, q, a2, _, _, _, _, _, he⟩ <;>
        · subst he
          refine ⟨a2, ?_⟩
          show upd (upd e.accounts t.client (acc0 e t)) t.client a2 t.client = some a2
          exact upd_self _ _ _
  · intro err hr
    subst hr
    rw [insert_err_base e t e2 err h]
    show upd e.accounts t.client (acc0 e t) t.client = some (Account.new t.client)
    rw [upd_self]
    simp [acc0, hfresh]

/-- Witness for C9: a dispute of a never-seen transaction id by a fresh
client still creates the client's zero account. -/
theorem c9_lazy_account_creation_witness :
    (∃ a2, ({ transactions := ([] : List (Nat × Transaction)),
              accounts := upd PaymentEngine.default.accounts 7
                ((PaymentEngine.default.accounts 7).getD (Account.new 7)) } :
        PaymentEngine).accounts 7 = some a2)
    ∧ ({ transactions := ([] : List (Nat × Transaction)),
         accounts := upd PaymentEngine.default.accounts 7
           ((PaymentEngine.default.accounts 7).getD (Account.new 7)) } :
        PaymentEngine).accounts 7 = some (Account.new 7) :=
  ⟨(c9_lazy_account_creation PaymentEngine.default (dispRec 7 99) _
      (Except.error TransactionError.transactionNotFound) rfl (by rfl)).1,
   (c9_lazy_account_creation PaymentEngine.default (dispRec 7 99) _
      (Except.error TransactionError.transactionNotFound) rfl (by rfl)).2
     TransactionError.transactionNotFound rfl⟩

/-- C10 (amended): the `unwrap()` of a `None` amount in the
Deposit/Withdrawal arm of `PaymentEngine::insert` panics whenever that arm
reaches it, i.e. when the transaction id is fresh; and under the input
precondition that only shape-valid records reach the core (and hence every
stored ledger entry carries an amount), `insert` never panics. -/
theorem c10_unwrap_none_panics (e : PaymentEngine) (t : Transaction) :
    ((t.variant = TransactionVariant.deposit ∨ t.variant = TransactionVariant.withdrawal) →
      t.amount = none → alook e.transactions t.tx = none → e.insert t = none)
    ∧ (WfLedger e → t.is_valid = true → (e.insert t).isSome = true) := by
  constructor
  · intro hv ham hfresh
    rcases hv with hv | hv <;>
      · simp only [PaymentEngine.insert, hv]
        rw [if_neg (show ¬(alook e.transactions t.tx).isSome = true from by rw [hfresh]; simp)]
        simp only [ham]
  · intro hwf hval
    cases hi : e.insert t with
    | some p => rfl
    | none =>
      exfalso
      rcases insert_none_spec e t hi with ⟨hv, ham⟩ | ⟨hv, dtx, hdt, ham⟩
      · rcases hv with hv | hv <;> simp [Transaction.is_valid, hv, ham] at hval
      · have h2 := hwf _ (alook_mem _ _ _ hdt)
        rw [ham] at h2
        simp at h2

/-- C10 counterexample to the claim as stated: a Deposit with a `None`
amount whose transaction id already exists in the ledger does not panic —
the duplicate-id check returns `TransactionAlreadyExist` before the
`unwrap` is reached. -/
theorem c10_counterexample :
    ((eng1.insert ⟨TransactionVariant.deposit, 1, 1, none, false, false⟩).map
        (fun p => errKind p.2) = some (some TransactionError.transactionAlreadyExist))
    ∧ (eng1.insert ⟨TransactionVariant.deposit, 1, 1, none, false, false⟩).isSome = true := by
  constructor
  · decide
  · decide

/-- Witness for the amended C10: the panic on a fresh id with a `None`
amount, and a valid record that does not panic. -/
theorem c10_unwrap_none_panics_witness :
    (PaymentEngine.default.insert ⟨TransactionVariant.deposit, 1, 1, none, false, false⟩ = none)
    ∧ (PaymentEngine.default.insert (depRec 1 1 100000)).isSome = true :=
  ⟨(c10_unwrap_none_panics PaymentEngine.default
      ⟨TransactionVariant.deposit, 1, 1, none, false, false⟩).1 (Or.inl rfl) rfl rfl,
   (c10_unwrap_none_panics PaymentEngine.default (depRec 1 1 100000)).2
     (fun p hp => absurd hp (List.not_mem_nil p)) rfl⟩
